import Mathlib

/-!
Verification development for the density-function component of the repository
(`assignment3/pdfs.py`, class `ProbabilityDensityFunction`).

The Python class is embedded shallowly over `ℚ`:
* the external interpolation primitive (`scipy.interpolate.InterpolatedUnivariateSpline`)
  is modelled by `modelFit`, which performs the primitive's input validation
  (equal lengths, strictly increasing abscissae, `1 ≤ k ≤ 5`, more points than
  the degree) and on success returns an exact piecewise-polynomial interpolant:
  each piece passes through its two grid points, and for degree `k ≥ 2` the
  piece carries an interior curvature term that vanishes at the nodes.  The
  model is linear in the ordinate data, as the real primitive is, and
  extrapolates beyond the grid by polynomial extension of the end pieces
  (the primitive's default `ext=0` behaviour);
* the external quadrature primitive (`scipy.integrate.quad`) is modelled by
  `quadPP`, the exact definite integral of such a piecewise polynomial (the
  primitive's accuracy estimate, discarded by the Python code, is dropped);
* the uniform random source is externalized: `sample` receives the list of
  uniform draws as an argument;
* errors raised by the Python code itself become the named constructors of
  `PdfError`; errors raised inside the scipy primitives become
  `PdfError.scipyError` with the primitive's message.
-/

set_option maxRecDepth 8000

namespace CM

/-- One polynomial piece of a fitted spline on `[lo, hi]`:
`p(t) = y0 + s * (t - lo) + c * (t - lo) * (hi - t)`.
The curvature term vanishes at both endpoints, so the piece passes through
`(lo, y0)` and `(hi, y0 + s * (hi - lo))`. -/
structure Piece where
  lo : ℚ
  hi : ℚ
  y0 : ℚ
  s : ℚ
  c : ℚ
deriving DecidableEq

/-- Value of the piece's polynomial at `t` (also used outside `[lo, hi]`,
where it is the polynomial extension). -/
def Piece.evalP (p : Piece) (t : ℚ) : ℚ :=
  p.y0 + p.s * (t - p.lo) + p.c * ((t - p.lo) * (p.hi - t))

/-- Exact integral of the piece's polynomial from `lo` to `u` (valid for any
`u`, including `u < lo` and `u > hi`, by polynomial extension). -/
def Piece.intFromLo (p : Piece) (u : ℚ) : ℚ :=
  p.y0 * (u - p.lo) + p.s * ((u - p.lo) ^ 2 / 2)
    + p.c * ((p.hi - p.lo) * ((u - p.lo) ^ 2 / 2) - (u - p.lo) ^ 3 / 3)

/-- Scale the ordinate data of a piece by `1 / A` (the shape a piece takes
when every input ordinate is divided by `A`). -/
def Piece.scaleDiv (p : Piece) (A : ℚ) : Piece :=
  ⟨p.lo, p.hi, p.y0 / A, p.s / A, p.c / A⟩

/-- Evaluate a piecewise polynomial at `t`.  Points left of the grid use the
first piece's polynomial, points right of the grid the last piece's
(extrapolation by polynomial extension). -/
def evalPieces : List Piece → ℚ → ℚ
  | [], _ => 0
  | [p], t => p.evalP t
  | p :: q :: rest, t => if t < p.hi then p.evalP t else evalPieces (q :: rest) t

/-- Exact integral of a piecewise polynomial from the first breakpoint to `t`
(an antiderivative normalised to vanish at the first breakpoint), extended by
the end pieces' polynomials outside the grid. -/
def intPieces : List Piece → ℚ → ℚ
  | [], _ => 0
  | [p], t => p.intFromLo t
  | p :: q :: rest, t =>
      if t < p.hi then p.intFromLo t else p.intFromLo p.hi + intPieces (q :: rest) t

/-- Model of the definite-integration primitive applied to a fitted spline:
the exact integral of the piecewise polynomial from `a` to `b` (negated when
the bounds are reversed, as for any definite integral). -/
def quadPP (f : List Piece) (a b : ℚ) : ℚ :=
  intPieces f b - intPieces f a

/-- Slope of the segment joining `(x0, y0)` and `(x1, y1)`. -/
def segSlope (x0 y0 x1 y1 : ℚ) : ℚ := (y1 - y0) / (x1 - x0)

/-- Curvature coefficient of a segment of the model interpolant: zero for
degree 1 and for the last segment, the difference of the adjacent slopes
otherwise. -/
def segCurv (k : ℕ) (x0 y0 x1 y1 : ℚ) : List (ℚ × ℚ) → ℚ
  | [] => 0
  | (x2, y2) :: _ =>
      if 2 ≤ k then segSlope x1 y1 x2 y2 - segSlope x0 y0 x1 y1 else 0

/-- Build the pieces of the model interpolant of degree `k` through the given
`(x, y)` pairs: each consecutive pair contributes a linear segment, and for
`k ≥ 2` every segment but the last additionally bends by the difference of the
adjacent slopes (a curvature term vanishing at the nodes).  The construction
is linear in the ordinates. -/
def mkPieces (k : ℕ) : List (ℚ × ℚ) → List Piece
  | [] => []
  | [_] => []
  | (x0, y0) :: (x1, y1) :: rest =>
      ⟨x0, x1, y0, segSlope x0 y0 x1 y1, segCurv k x0 y0 x1 y1 rest⟩
        :: mkPieces k ((x1, y1) :: rest)

/-- Decidable equality of `Except` results, for evaluating the model on
concrete inputs. -/
instance {e a : Type} [DecidableEq e] [DecidableEq a] : DecidableEq (Except e a) := fun u v =>
  match u, v with
  | .error e1, .error e2 =>
      if h : e1 = e2 then .isTrue (by rw [h])
      else .isFalse (fun hh => h (Except.error.inj hh))
  | .error _, .ok _ => .isFalse (fun hh => Except.noConfusion hh)
  | .ok _, .error _ => .isFalse (fun hh => Except.noConfusion hh)
  | .ok a1, .ok a2 =>
      if h : a1 = a2 then .isTrue (by rw [h])
      else .isFalse (fun hh => h (Except.ok.inj hh))

/-- The interpolation primitive's input check `np.all(np.diff(x) > 0)`: the
abscissae are strictly increasing. -/
def strictlyIncreasing : List ℚ → Bool
  | [] => true
  | [_] => true
  | a :: b :: rest => decide (a < b) && strictlyIncreasing (b :: rest)

/-- Model of the interpolation primitive
(`InterpolatedUnivariateSpline(x, y, k=k)`): validates its input exactly as the
primitive does — matching lengths, strictly increasing `x`, degree between 1
and 5, strictly more data points than the degree — and on success returns the
piecewise-polynomial interpolant. -/
def modelFit (k : ℕ) (x y : List ℚ) : Except String (List Piece) :=
  if x.length ≠ y.length then .error "x and y should have equal lengths"
  else if ¬ strictlyIncreasing x then .error "x must be strictly increasing"
  else if ¬ (1 ≤ k ∧ k ≤ 5) then .error "k should be 1 <= k <= 5"
  else if ¬ (k < x.length) then .error "m > k must hold"
  else .ok (mkPieces k (x.zip y))

/-- Model of `np.linspace a b n`: `n` equally spaced points from `a` to `b`. -/
def linspace (a b : ℚ) (n : ℕ) : List ℚ :=
  (List.range n).map (fun i => a + (b - a) * (i : ℚ) / ((n : ℚ) - 1))

/-- Error taxonomy.  The first three constructors are the `ValueError`s raised
explicitly by the Python class (`DimensionMismatch`, `InsufficientPoints`,
`IntervalOutOfRange` of the spec); `degenerateDensity` is the spec's fourth
named kind, which no statement of the Python code raises; `scipyError` is an
error raised inside one of the external numerical primitives. -/
inductive PdfError where
  | dimensionMismatch
  | insufficientPoints
  | intervalOutOfRange
  | degenerateDensity
  | scipyError (msg : String)
deriving DecidableEq

/-- State of a constructed `ProbabilityDensityFunction`: the four fields the
Python constructor stores (`self.x`, `self.y`, `self.y_normalized`,
`self.spline`). -/
structure ProbabilityDensityFunction where
  x : List ℚ
  y : List ℚ
  y_normalized : List ℚ
  spline : List Piece
deriving DecidableEq

/-- The normalization integral of the constructor:
`quad(InterpolatedUnivariateSpline(x, y), x[0], x[-1])` — note the fit here
uses the primitive's default degree 3, independent of the requested
`spline_order`. -/
def total_area (x y : List ℚ) : Except String ℚ :=
  (modelFit 3 x y).map (fun f => quadPP f (x.headD 0) (x.getLastD 0))

/-- The constructor's conditional normalization: when `normalize` is set,
compute `total_area` (degree-3 fit plus quadrature) and divide each ordinate
by it; otherwise keep `y` unchanged. -/
def normalizeStep (x y : List ℚ) (normalize : Bool) : Except String (List ℚ) :=
  if normalize then (total_area x y).map (fun A => y.map (fun v => v / A))
  else .ok y

/-- Model of `ProbabilityDensityFunction.__init__`: the two explicit length
checks, then (when `normalize` is set) the normalization integral at the
default degree 3 followed by the element-wise division `y / total_area`, then
the final fit at the requested `spline_order`. -/
def ProbabilityDensityFunction.init (x y : List ℚ) (spline_order : ℕ) (normalize : Bool) :
    Except PdfError ProbabilityDensityFunction :=
  if x.length ≠ y.length then .error .dimensionMismatch
  else if x.length < 2 then .error .insufficientPoints
  else
    match normalizeStep x y normalize with
    | .error m => .error (.scipyError m)
    | .ok yn =>
        match modelFit spline_order x yn with
        | .error m => .error (.scipyError m)
        | .ok sp => .ok ⟨x, y, yn, sp⟩

/-- Model of `evaluate`: `self.spline(points)`.  A scalar argument yields a
scalar, a sequence yields the element-wise image; there is no domain check and
no error path. -/
def ProbabilityDensityFunction.evaluate (st : ProbabilityDensityFunction)
    (points : ℚ ⊕ List ℚ) : ℚ ⊕ List ℚ :=
  match points with
  | .inl p => .inl (evalPieces st.spline p)
  | .inr ps => .inr (ps.map (fun p => evalPieces st.spline p))

/-- Model of `probability_in_interval`: the bound check
`a < self.x[0] or b > self.x[-1]` followed by `quad(self.spline, a, b)`. -/
def ProbabilityDensityFunction.probability_in_interval (st : ProbabilityDensityFunction)
    (a b : ℚ) : Except PdfError ℚ :=
  if a < st.x.headD 0 ∨ b > st.x.getLastD 0 then .error .intervalOutOfRange
  else .ok (quadPP st.spline a b)

/-- The coordinate grid of `sample`:
`np.linspace(self.x[0], self.x[-1], len(self.x))`. -/
def ProbabilityDensityFunction.cdf_x (st : ProbabilityDensityFunction) : List ℚ :=
  linspace (st.x.headD 0) (st.x.getLastD 0) st.x.length

/-- The raw CDF values of `sample`:
`[quad(self.spline, self.x[0], xi)[0] for xi in cdf_x]`. -/
def ProbabilityDensityFunction.cdf_y (st : ProbabilityDensityFunction) : List ℚ :=
  st.cdf_x.map (fun xi => quadPP st.spline (st.x.headD 0) xi)

/-- The rescaled CDF values of `sample`: `cdf_y /= cdf_y[-1]` (the rescaling
acts on an array local to the call). -/
def ProbabilityDensityFunction.cdf_rescaled (st : ProbabilityDensityFunction) : List ℚ :=
  st.cdf_y.map (fun v => v / st.cdf_y.getLastD 0)

/-- Model of `sample`: with the uniform draws supplied externally, build the
rescaled empirical CDF, fit the degree-1 inverse interpolant
`InterpolatedUnivariateSpline(cdf_y, cdf_x, k=1)`, and evaluate it at the
draws. -/
def ProbabilityDensityFunction.sample (st : ProbabilityDensityFunction)
    (uniform_samples : List ℚ) : Except PdfError (List ℚ) :=
  match modelFit 1 st.cdf_rescaled st.cdf_x with
  | .error m => .error (.scipyError m)
  | .ok inverse_cdf => .ok (uniform_samples.map (fun u => evalPieces inverse_cdf u))

/-- Restatement of the sampling algorithm exactly as the spec words it
(steps 2–5 of §4.4): pair each grid point with its CDF value, rescale the CDF
coordinates of the pairs by the final CDF value, build the order-1 inverse
interpolant from the rescaled pairs, and map it over the draws.  Written for
comparison with `ProbabilityDensityFunction.sample`, which is translated from
the code. -/
def sampleSpec (st : ProbabilityDensityFunction) (draws : List ℚ) :
    Except PdfError (List ℚ) :=
  let x0 := st.x.headD 0
  let pts := linspace x0 (st.x.getLastD 0) st.x.length
  let pairs := pts.map (fun g => (quadPP st.spline x0 g, g))
  let lastCdf := (pairs.map Prod.fst).getLastD 0
  let rescaled := pairs.map (fun pr => (pr.1 / lastCdf, pr.2))
  match modelFit 1 (rescaled.map Prod.fst) (rescaled.map Prod.snd) with
  | .error m => .error (.scipyError m)
  | .ok inverse_cdf => .ok (draws.map (fun u => evalPieces inverse_cdf u))

/-- A query against a constructed model: point/sequence evaluation, interval
probability, or sampling (with its uniform draws). -/
inductive Call where
  | eval (points : ℚ ⊕ List ℚ)
  | prob (a b : ℚ)
  | samp (uniform_samples : List ℚ)

/-- State-passing form of the three query methods: each runs the method body
on the current state and returns the state left behind.  No method body of the
Python class assigns to a field of `self` (the in-place `cdf_y /= cdf_y[-1]`
in `sample` rebinds an array local to the call), so each call leaves the state
it was given. -/
def runCall (st : ProbabilityDensityFunction) : Call → ProbabilityDensityFunction
  | .eval points => (st.evaluate points, st).2
  | .prob a b => (st.probability_in_interval a b, st).2
  | .samp us => (st.sample us, st).2

/-- A concrete constructed model used to instantiate general theorems: the
constant density on `[0, 4]`, normalized. -/
def exampleState : ProbabilityDensityFunction :=
  ((ProbabilityDensityFunction.init [0, 1, 2, 3, 4] [1, 1, 1, 1, 1] 3 true).toOption).getD
    ⟨[], [], [], []⟩

/-- A concrete constructed model whose CDF is identically zero: the density
`y = [1, -1, 1]` on `[0, 2]`, fitted at order 1 without normalization. -/
def degenerateState : ProbabilityDensityFunction :=
  ((ProbabilityDensityFunction.init [0, 1, 2] [1, -1, 1] 1 false).toOption).getD
    ⟨[], [], [], []⟩

/-! Helper lemmas: the model interpolant and its exact integral are linear in
the ordinate data, and the validation outcomes of `modelFit` and
`ProbabilityDensityFunction.init` can be read off their guards. -/

theorem segSlope_div (x0 y0 x1 y1 A : ℚ) :
    segSlope x0 (y0 / A) x1 (y1 / A) = segSlope x0 y0 x1 y1 / A := by
  simp only [segSlope, div_eq_mul_inv]
  ring

theorem segCurv_div (k : ℕ) (x0 y0 x1 y1 A : ℚ) (rest : List (ℚ × ℚ)) :
    segCurv k x0 (y0 / A) x1 (y1 / A) (rest.map (fun pr => (pr.1, pr.2 / A)))
      = segCurv k x0 y0 x1 y1 rest / A := by
  cases rest with
  | nil => simp [segCurv]
  | cons hd tl =>
      obtain ⟨x2, y2⟩ := hd
      by_cases hk : 2 ≤ k
      · simp only [List.map_cons, segCurv, if_pos hk, segSlope_div, div_sub_div_same]
      · simp [segCurv, if_neg hk]

theorem mkPieces_map_div (k : ℕ) (A : ℚ) :
    ∀ l : List (ℚ × ℚ),
      mkPieces k (l.map (fun pr => (pr.1, pr.2 / A)))
        = (mkPieces k l).map (fun p => p.scaleDiv A)
  | [] => rfl
  | [_] => rfl
  | (x0, y0) :: (x1, y1) :: rest => by
      simp only [List.map_cons, mkPieces]
      refine List.cons_eq_cons.mpr ⟨?_, ?_⟩
      · simp only [Piece.scaleDiv, segSlope_div]
        have hc := segCurv_div k x0 y0 x1 y1 A rest
        simp only [hc]
      · exact mkPieces_map_div k A ((x1, y1) :: rest)

theorem intFromLo_scaleDiv (p : Piece) (A u : ℚ) :
    (p.scaleDiv A).intFromLo u = p.intFromLo u / A := by
  simp only [Piece.intFromLo, Piece.scaleDiv, div_eq_mul_inv]
  ring

theorem intPieces_scaleDiv (A : ℚ) :
    ∀ (l : List Piece) (t : ℚ),
      intPieces (l.map (fun p => p.scaleDiv A)) t = intPieces l t / A
  | [], _ => by simp [intPieces]
  | [p], t => by simpa [intPieces] using intFromLo_scaleDiv p A t
  | p :: q :: rest, t => by
      have ih := intPieces_scaleDiv A (q :: rest) t
      have hp := intFromLo_scaleDiv p A t
      have hph := intFromLo_scaleDiv p A p.hi
      simp only [List.map_cons, intPieces, Piece.scaleDiv] at ih hp hph ⊢
      by_cases h : t < p.hi
      · rw [if_pos h, if_pos h, hp]
      · rw [if_neg h, if_neg h, hph, ih, div_add_div_same]

theorem quadPP_scaleDiv (l : List Piece) (A a b : ℚ) :
    quadPP (l.map (fun p => p.scaleDiv A)) a b = quadPP l a b / A := by
  simp only [quadPP, intPieces_scaleDiv, div_sub_div_same]

theorem modelFit_map_div (k : ℕ) (x y : List ℚ) (A : ℚ) :
    modelFit k x (y.map (fun v => v / A))
      = (modelFit k x y).map (fun f => f.map (fun p => p.scaleDiv A)) := by
  have hzip : x.zip (y.map (fun v => v / A))
      = (x.zip y).map (fun pr => (pr.1, pr.2 / A)) := by
    rw [List.zip_map_right]
    refine List.map_congr_left (fun pr _ => ?_)
    cases pr
    rfl
  unfold modelFit
  simp only [List.length_map]
  split_ifs with h1 h2 h3 h4 <;> try rfl
  simp only [Except.map, hzip, mkPieces_map_div]

theorem modelFit_ok_elim {k : ℕ} {x y : List ℚ} {f : List Piece}
    (h : modelFit k x y = .ok f) :
    x.length = y.length ∧ strictlyIncreasing x
      ∧ 1 ≤ k ∧ k ≤ 5 ∧ k < x.length ∧ f = mkPieces k (x.zip y) := by
  unfold modelFit at h
  split_ifs at h with h1 h2 h3 h4
  push_neg at h1
  cases h
  exact ⟨h1, h2, h3.1, h3.2, h4, rfl⟩

theorem modelFit_not_sorted {x : List ℚ} (k : ℕ) (y : List ℚ)
    (hlen : x.length = y.length)
    (hs : ¬ strictlyIncreasing x) :
    modelFit k x y = .error "x must be strictly increasing" := by
  unfold modelFit
  rw [if_neg (by simp [hlen]), if_pos hs]

theorem normalizeStep_false (x y : List ℚ) : normalizeStep x y false = .ok y := rfl

theorem normalizeStep_true_elim {x y yn : List ℚ}
    (h : normalizeStep x y true = .ok yn) :
    ∃ A, total_area x y = .ok A ∧ yn = y.map (fun v => v / A) := by
  unfold normalizeStep at h
  rw [if_pos rfl] at h
  cases hA : total_area x y with
  | error m => rw [hA] at h; cases h
  | ok A =>
      rw [hA] at h
      refine ⟨A, rfl, ?_⟩
      cases h
      rfl

theorem init_ok_elim {x y : List ℚ} {k : ℕ} {n : Bool}
    {st : ProbabilityDensityFunction}
    (h : ProbabilityDensityFunction.init x y k n = .ok st) :
    st.x = x ∧ st.y = y
      ∧ modelFit k x st.y_normalized = .ok st.spline
      ∧ normalizeStep x y n = .ok st.y_normalized := by
  unfold ProbabilityDensityFunction.init at h
  split_ifs at h with h1 h2
  split at h
  · cases h
  next yn hyn =>
    split at h
    · cases h
    next sp hfit =>
      cases h
      exact ⟨rfl, rfl, hfit, hyn⟩

theorem init_error_elim {x y : List ℚ} {k : ℕ} {n : Bool} {e : PdfError}
    (hl : x.length = y.length) (h2 : ¬ x.length < 2)
    (h : ProbabilityDensityFunction.init x y k n = .error e) :
    ∃ m, e = .scipyError m := by
  unfold ProbabilityDensityFunction.init at h
  rw [if_neg (by simp [hl]), if_neg h2] at h
  split at h
  next m hn =>
    cases h
    exact ⟨m, rfl⟩
  next yn hn =>
    split at h
    next m hfit =>
      cases h
      exact ⟨m, rfl⟩
    next sp hfit => cases h

/-- Each query method leaves the state it was given. -/
theorem runCall_preserves (st : ProbabilityDensityFunction) (c : Call) :
    runCall st c = st := by
  cases c <;> rfl

theorem total_area_ok_elim {x y : List ℚ} {A : ℚ} (h : total_area x y = .ok A) :
    ∃ f, modelFit 3 x y = .ok f ∧ quadPP f (x.headD 0) (x.getLastD 0) = A := by
  unfold total_area at h
  cases hf : modelFit 3 x y with
  | error m => rw [hf] at h; cases h
  | ok f =>
      rw [hf] at h
      simp only [Except.map] at h
      cases h
      exact ⟨f, rfl, rfl⟩

/-! The ten claims. -/

/-- C1, counterexample: the claim that every normalized construction at any
permitted spline order integrates to 1 over the grid domain is false.  With
the grid `x = [0, 1, 2, 3]`, `y = [0, 1, 0, 0]` and the permitted order 1, the
normalization constant is computed from the default degree-3 fit
(`total_area = 5/6`) while the interpolant is the degree-1 fit of the rescaled
data, whose integral over `[0, 3]` is `6/5`, not 1. -/
theorem c1_counterexample :
    (ProbabilityDensityFunction.init [0, 1, 2, 3] [0, 1, 0, 0] 1 true).map
        (fun st => quadPP st.spline 0 3) = .ok (6 / 5)
      ∧ ((6 : ℚ) / 5) ≠ 1 ∧ 1 ≤ 1 ∧ 1 ≤ min 5 (([0, 1, 2, 3] : List ℚ).length - 1) := by
  refine ⟨of_decide_eq_true (by with_unfolding_all rfl),
    of_decide_eq_true (by with_unfolding_all rfl), le_refl 1,
    of_decide_eq_true (by with_unfolding_all rfl)⟩

/-- C1, amended: for every valid construction with `normalize = true` at the
default spline order 3 whose `total_area` is nonzero, the interpolant
integrates exactly to 1 over `[grid_x[0], grid_x[-1]]`, and consequently
`probability_in_interval(grid_x[0], grid_x[-1])` returns 1.  (At order 3 the
normalization integral and the final interpolant use the same fit, so the
rescaling by `1 / total_area` makes the integral exactly 1 in the exact-
arithmetic model.) -/
theorem c1_amended_integral_one (x y : List ℚ) (st : ProbabilityDensityFunction) (A : ℚ)
    (hinit : ProbabilityDensityFunction.init x y 3 true = .ok st)
    (hA : total_area x y = .ok A) (hA0 : A ≠ 0) :
    quadPP st.spline (x.headD 0) (x.getLastD 0) = 1
      ∧ st.probability_in_interval (x.headD 0) (x.getLastD 0) = .ok 1 := by
  obtain ⟨hx, hy, hfit, hyn⟩ := init_ok_elim hinit
  obtain ⟨A', hA', hynA⟩ := normalizeStep_true_elim hyn
  obtain ⟨f0, hf0, hquad⟩ := total_area_ok_elim hA
  rw [hA] at hA'
  have hAA : A' = A := (Except.ok.inj hA').symm
  subst hAA
  rw [hynA, modelFit_map_div, hf0] at hfit
  simp only [Except.map] at hfit
  have hsp : st.spline = f0.map (fun p => p.scaleDiv A') := (Except.ok.inj hfit).symm
  have hmain : quadPP st.spline (x.headD 0) (x.getLastD 0) = 1 := by
    rw [hsp, quadPP_scaleDiv, hquad, div_self hA0]
  refine ⟨hmain, ?_⟩
  unfold ProbabilityDensityFunction.probability_in_interval
  rw [hx, if_neg (by simp), hmain]

/-- C1, witness for the amended theorem at the input
`x = [0, 1, 2, 3]`, `y = [0, 1, 0, 0]`, order 3, `normalize = true`
(`total_area = 5/6`). -/
theorem c1_witness :
    quadPP (((ProbabilityDensityFunction.init [0, 1, 2, 3] [0, 1, 0, 0] 3 true).toOption).getD
          ⟨[], [], [], []⟩).spline
        (([0, 1, 2, 3] : List ℚ).headD 0) (([0, 1, 2, 3] : List ℚ).getLastD 0) = 1
      ∧ (((ProbabilityDensityFunction.init [0, 1, 2, 3] [0, 1, 0, 0] 3 true).toOption).getD
          ⟨[], [], [], []⟩).probability_in_interval
        (([0, 1, 2, 3] : List ℚ).headD 0) (([0, 1, 2, 3] : List ℚ).getLastD 0) = .ok 1 :=
  c1_amended_integral_one [0, 1, 2, 3] [0, 1, 0, 0] _ (5 / 6)
    (of_decide_eq_true (by with_unfolding_all rfl)) (of_decide_eq_true (by with_unfolding_all rfl)) (of_decide_eq_true (by with_unfolding_all rfl))

/-- C2, counterexample: the claim that `probability_in_interval` raises
`IntervalOutOfRange` whenever a bound falls outside the domain — in
particular when `a > grid_x[-1]` — is false.  On the normalized constant
density over `[0, 4]`, the call with `a = 11 > 4` and `b = 3` passes the
code's check (`a < x[0] or b > x[-1]`), performs the integration over the
partly extrapolated region, and returns `-2`. -/
theorem c2_counterexample :
    (ProbabilityDensityFunction.init [0, 1, 2, 3, 4] [1, 1, 1, 1, 1] 3 true).map
        (fun st => st.probability_in_interval 11 3) = .ok (.ok (-2))
      ∧ (11 : ℚ) > 4 := by
  exact ⟨of_decide_eq_true (by with_unfolding_all rfl), of_decide_eq_true (by with_unfolding_all rfl)⟩

/-- C2, amended: `probability_in_interval a b` raises `IntervalOutOfRange`
exactly when `a < grid_x[0]` or `b > grid_x[-1]`; in every other case —
including `a > grid_x[-1]` with `b ≤ grid_x[-1]`, and `b < grid_x[0]` with
`a ≥ grid_x[0]` — no error is raised and the integral (over a possibly
extrapolated region) is computed and returned. -/
theorem c2_amended_guard (st : ProbabilityDensityFunction) (a b : ℚ) :
    (st.probability_in_interval a b = .error .intervalOutOfRange
        ↔ (a < st.x.headD 0 ∨ b > st.x.getLastD 0))
      ∧ (¬ (a < st.x.headD 0 ∨ b > st.x.getLastD 0)
        → st.probability_in_interval a b = .ok (quadPP st.spline a b)) := by
  unfold ProbabilityDensityFunction.probability_in_interval
  by_cases h : a < st.x.headD 0 ∨ b > st.x.getLastD 0
  · rw [if_pos h]
    exact ⟨⟨fun _ => h, fun _ => rfl⟩, fun hc => absurd h hc⟩
  · rw [if_neg h]
    refine ⟨⟨fun he => ?_, fun hh => absurd hh h⟩, fun _ => rfl⟩
    cases he

/-- C2, witness for the amended theorem: the out-of-domain call
`probability_in_interval 11 3` on the constant density over `[0, 4]` is not
rejected and returns the computed integral. -/
theorem c2_witness :
    exampleState.probability_in_interval 11 3 = .ok (quadPP exampleState.spline 11 3) :=
  (c2_amended_guard exampleState 11 3).2 (of_decide_eq_true (by with_unfolding_all rfl))

/-- C3: at the input `x = [0, 1, 2, 3]`, `y = [-3, -1, 1, 3]` with
`normalize = true`, the normalization integral `total_area` is exactly 0, yet
construction succeeds: the code divides by the zero area and builds the
entity without raising any error (no `DegenerateDensity` check exists in the
code), contrary to the claim. -/
theorem c3_zero_area_construction_succeeds :
    total_area [0, 1, 2, 3] [-3, -1, 1, 3] = .ok 0
      ∧ (ProbabilityDensityFunction.init [0, 1, 2, 3] [-3, -1, 1, 3] 3 true).isOk = true := by
  exact ⟨of_decide_eq_true (by with_unfolding_all rfl), of_decide_eq_true (by with_unfolding_all rfl)⟩

/-- C4, counterexample: the claim that `sample` raises `DegenerateDensity`
when the CDF fails to be strictly increasing is false.  On the density
`y = [1, -1, 1]` over `[0, 2]` (order 1, unnormalized) the CDF values are
`[0, 0, 0]`; `sample` fails, but with the interpolation primitive's own
invalid-input error, not with `DegenerateDensity`. -/
theorem c4_counterexample :
    (ProbabilityDensityFunction.init [0, 1, 2] [1, -1, 1] 1 false).map
        (fun st => st.sample [1 / 2])
      = .ok (.error (.scipyError "x must be strictly increasing"))
      ∧ (Except.error (PdfError.scipyError "x must be strictly increasing")
          : Except PdfError (List ℚ)) ≠ .error .degenerateDensity := by
  exact ⟨of_decide_eq_true (by with_unfolding_all rfl), of_decide_eq_true (by with_unfolding_all rfl)⟩

/-- C4, amended: whenever the rescaled CDF values of a model fail to be
strictly increasing, `sample` fails at sampling time — no silently wrong
samples are returned — but the error is the underlying interpolation
primitive's invalid-input error (surfaced as `scipyError`), not a
component-level `DegenerateDensity`. -/
theorem c4_amended_primitive_error (st : ProbabilityDensityFunction) (us : List ℚ)
    (h : ¬ strictlyIncreasing st.cdf_rescaled) :
    ∃ m, st.sample us = .error (.scipyError m) := by
  refine ⟨"x must be strictly increasing", ?_⟩
  unfold ProbabilityDensityFunction.sample
  rw [modelFit_not_sorted 1 st.cdf_x ?hlen h]
  case hlen =>
    simp [ProbabilityDensityFunction.cdf_rescaled, ProbabilityDensityFunction.cdf_y]

/-- C4, witness for the amended theorem at the zero-CDF model built from
`x = [0, 1, 2]`, `y = [1, -1, 1]`. -/
theorem c4_witness :
    ∃ m, degenerateState.sample [1 / 2] = .error (.scipyError m) :=
  c4_amended_primitive_error degenerateState [1 / 2] (of_decide_eq_true (by with_unfolding_all rfl))

/-- C5: construction fails with `DimensionMismatch` exactly when
`len(x) ≠ len(y)` (checked first), and with `InsufficientPoints` exactly when
the lengths agree but are less than 2; for inputs satisfying both conditions
neither of these errors is ever the result. -/
theorem c5_length_checks (x y : List ℚ) (k : ℕ) (n : Bool) :
    (ProbabilityDensityFunction.init x y k n = .error .dimensionMismatch
        ↔ x.length ≠ y.length)
      ∧ (ProbabilityDensityFunction.init x y k n = .error .insufficientPoints
        ↔ (x.length = y.length ∧ x.length < 2)) := by
  have hdim : x.length ≠ y.length →
      ProbabilityDensityFunction.init x y k n = .error .dimensionMismatch := fun hne => by
    unfold ProbabilityDensityFunction.init
    rw [if_pos hne]
  have hins : x.length = y.length → x.length < 2 →
      ProbabilityDensityFunction.init x y k n = .error .insufficientPoints :=
    fun heq hlt => by
      unfold ProbabilityDensityFunction.init
      rw [if_neg (by simp [heq]), if_pos hlt]
  by_cases h1 : x.length = y.length
  · by_cases h2 : x.length < 2
    · rw [hins h1 h2]
      exact ⟨⟨fun he => by simp at he, fun hne => absurd h1 hne⟩,
        ⟨fun _ => ⟨h1, h2⟩, fun _ => rfl⟩⟩
    · constructor
      · refine ⟨fun he => ?_, fun hne => absurd h1 hne⟩
        obtain ⟨m, hm⟩ := init_error_elim h1 h2 he
        cases hm
      · refine ⟨fun he => ?_, fun hc => absurd hc.2 h2⟩
        obtain ⟨m, hm⟩ := init_error_elim h1 h2 he
        cases hm
  · rw [hdim h1]
    exact ⟨⟨fun _ => h1, fun _ => rfl⟩,
      ⟨fun he => by simp at he, fun hc => absurd hc.1 h1⟩⟩

/-- C6: `sample` follows the spec's inverse-CDF algorithm — CDF values at
`len(grid_x)` equally spaced points, rescaled by the final value, an order-1
inverse interpolant from CDF value to coordinate, evaluated at the uniform
draws — and every successful call returns exactly as many values as it was
given draws. -/
theorem c6_sample_algorithm (st : ProbabilityDensityFunction) (us r : List ℚ)
    (h : st.sample us = .ok r) :
    st.sample us = sampleSpec st us ∧ r.length = us.length := by
  constructor
  · unfold ProbabilityDensityFunction.sample sampleSpec
    simp [ProbabilityDensityFunction.cdf_rescaled, ProbabilityDensityFunction.cdf_y,
      ProbabilityDensityFunction.cdf_x, List.map_map, Function.comp_def]
  · unfold ProbabilityDensityFunction.sample at h
    cases hfit : modelFit 1 st.cdf_rescaled st.cdf_x with
    | error m => rw [hfit] at h; cases h
    | ok inv =>
        rw [hfit] at h
        cases h
        simp

/-- C6, witness: on the normalized constant density over `[0, 4]`,
`sample [1/2]` succeeds with one value, and equals the spec-side
construction. -/
theorem c6_witness :
    exampleState.sample [1 / 2] = sampleSpec exampleState [1 / 2]
      ∧ ([2] : List ℚ).length = [(1 : ℚ) / 2].length :=
  c6_sample_algorithm exampleState [1 / 2] [2] (of_decide_eq_true (by with_unfolding_all rfl))

/-- C7: `evaluate` maps a scalar to the interpolant's value and a sequence to
the element-wise values in matching order and length; there is no
domain-bound check, so even for a point strictly outside
`[grid_x[0], grid_x[-1]]` it returns the spline's extrapolated value without
any error. -/
theorem c7_evaluate_shape (st : ProbabilityDensityFunction) (p : ℚ) (ps : List ℚ)
    (_hout : p < st.x.headD 0 ∨ p > st.x.getLastD 0) :
    st.evaluate (.inl p) = .inl (evalPieces st.spline p)
      ∧ st.evaluate (.inr ps) = .inr (ps.map (fun q => evalPieces st.spline q))
      ∧ (ps.map (fun q => evalPieces st.spline q)).length = ps.length := by
  exact ⟨rfl, rfl, by simp⟩

/-- C7, witness: evaluation at the out-of-domain point `100` on the constant
density over `[0, 4]`, together with a sequence query. -/
theorem c7_witness :
    exampleState.evaluate (.inl 100) = .inl (evalPieces exampleState.spline 100)
      ∧ exampleState.evaluate (.inr [5, -3, 7])
        = .inr ([5, -3, 7].map (fun q => evalPieces exampleState.spline q))
      ∧ (([5, -3, 7] : List ℚ).map (fun q => evalPieces exampleState.spline q)).length = 3 :=
  c7_evaluate_shape exampleState 100 [5, -3, 7] (of_decide_eq_true (by with_unfolding_all rfl))

/-- C8: for bounds `a`, `b` inside the domain, the reversed interval is
accepted without any ordering check, and the result of
`probability_in_interval b a` is exactly the negation of
`probability_in_interval a b`. -/
theorem c8_reversal_antisymmetry (st : ProbabilityDensityFunction) (a b : ℚ)
    (h1 : st.x.headD 0 ≤ a) (h2 : a ≤ st.x.getLastD 0)
    (h3 : st.x.headD 0 ≤ b) (h4 : b ≤ st.x.getLastD 0) :
    ∃ r, st.probability_in_interval a b = .ok r
      ∧ st.probability_in_interval b a = .ok (-r) := by
  refine ⟨quadPP st.spline a b, ?_, ?_⟩
  · unfold ProbabilityDensityFunction.probability_in_interval
    rw [if_neg (by push_neg; exact ⟨h1, h4⟩)]
  · unfold ProbabilityDensityFunction.probability_in_interval
    rw [if_neg (by push_neg; exact ⟨h3, h2⟩)]
    have hneg : quadPP st.spline b a = -quadPP st.spline a b := by
      unfold quadPP
      ring
    rw [hneg]

/-- C8, witness at the reversed in-domain pair `(1, 3)` on the constant
density over `[0, 4]`. -/
theorem c8_witness :
    ∃ r, exampleState.probability_in_interval 1 3 = .ok r
      ∧ exampleState.probability_in_interval 3 1 = .ok (-r) :=
  c8_reversal_antisymmetry exampleState 1 3 (of_decide_eq_true (by with_unfolding_all rfl)) (of_decide_eq_true (by with_unfolding_all rfl)) (of_decide_eq_true (by with_unfolding_all rfl)) (of_decide_eq_true (by with_unfolding_all rfl))

/-- C9: the entity is immutable after construction — any sequence of
`evaluate`, `probability_in_interval` and `sample` calls, run in
state-passing form, leaves every stored field (`x`, `y`, `y_normalized`,
`spline`) unchanged; `sample`'s in-place CDF rescaling touches only data
local to the call. -/
theorem c9_immutable_state (st : ProbabilityDensityFunction) (cs : List Call) :
    cs.foldl runCall st = st := by
  induction cs generalizing st with
  | nil => rfl
  | cons c tl ih => rw [List.foldl_cons, runCall_preserves, ih]

/-- C10: for inputs passing both explicit length checks
(`len(x) == len(y) ≥ 2`) whose requested order violates
`1 ≤ order ≤ min(5, len(x) - 1)`, construction fails inside the underlying
interpolation primitive, with an error that is none of the four named kinds
— it is a `scipyError`, never `DimensionMismatch`, `InsufficientPoints`,
`DegenerateDensity` or `IntervalOutOfRange`. -/
theorem c10_invalid_order_scipy_failure (x y : List ℚ) (k : ℕ) (n : Bool)
    (hlen : x.length = y.length) (h2 : 2 ≤ x.length)
    (hk : ¬ (1 ≤ k ∧ k ≤ min 5 (x.length - 1))) :
    ∃ m, ProbabilityDensityFunction.init x y k n = .error (.scipyError m) := by
  have h2' : ¬ x.length < 2 := not_lt.mpr h2
  cases hres : ProbabilityDensityFunction.init x y k n with
  | ok st =>
      exfalso
      obtain ⟨hx, hy, hfit, hyn⟩ := init_ok_elim hres
      obtain ⟨_, _, hk1, hk5, hklen, _⟩ := modelFit_ok_elim hfit
      exact hk ⟨hk1, le_min hk5 (Nat.le_sub_one_of_lt hklen)⟩
  | error e =>
      obtain ⟨m, hm⟩ := init_error_elim hlen h2' hres
      exact ⟨m, by rw [hm]⟩

/-- C10, witness: two grid points at the default order 3
(`3 > min(5, 2 - 1) = 1`) fail inside the interpolation primitive. -/
theorem c10_witness :
    ∃ m, ProbabilityDensityFunction.init [0, 1] [1, 1] 3 true = .error (.scipyError m) :=
  c10_invalid_order_scipy_failure [0, 1] [1, 1] 3 true (of_decide_eq_true (by with_unfolding_all rfl)) (of_decide_eq_true (by with_unfolding_all rfl)) (of_decide_eq_true (by with_unfolding_all rfl))

end CM
